import Mathlib

/-!
Verification of the `ruststep` repository: the ap000 holder/table runtime
(`src/ruststep/src/ap000.rs`), the EXPRESS parser attribute expansion
(`src/espr/src/parser/entity.rs`), and the legalizer / code generator for
type declarations (`src/espr/src/semantics/type_decl.rs`,
`src/espr/src/ast/types.rs`).

Real numbers (`f64` in the source) are modelled as `Rat`: the programs under
study only store and move real literals, never compute with them, so an exact
carrier is a faithful model of the pass-through.  `HashMap<u64, T>` is
modelled as an association list `List (Nat × T)` with replace-on-insert
semantics matching `std::collections::HashMap::insert`.
-/

set_option autoImplicit false

universe u

/-- Association-list model of `std::collections::HashMap::get`: the first
binding of the key, if any. -/
def mapGet {α : Type u} (k : Nat) : List (Nat × α) → Option α
  | [] => none
  | (k2, v) :: rest => if k2 = k then some v else mapGet k rest

/-- Association-list model of `std::collections::HashMap::insert`: replaces
the binding when the key is present (the old value, which the source discards,
is dropped), otherwise appends the new binding. -/
def mapInsert {α : Type u} (k : Nat) (v : α) : List (Nat × α) → List (Nat × α)
  | [] => [(k, v)]
  | (k2, v2) :: rest => if k2 = k then (k, v) :: rest else (k2, v2) :: mapInsert k v rest

/-- Association-list model of `std::collections::HashMap::values`. -/
def mapValues {α : Type u} (m : List (Nat × α)) : List α :=
  m.map Prod.snd

/-- Modelled from the spec: the error enumeration of §7 (`ruststep::error` is
not under `src/`).  Only the variants the claims exercise are kept; the
per-record deserialization errors (name, arity, argument-kind mismatch) are
the typed `DeserializeError` of §4.4 carrying the field index or the
expectation. -/
inductive Error where
  | unknownEntity (id : Nat)
  | cyclicReference (id : Nat)
  | duplicateId (id : Nat) (entityType : String)
  | unknownEntityType (name : String)
  | nameMismatch (expected got : String)
  | arityMismatch (expected got : Nat)
  | typeMismatch (field : Nat)
  | missingValue (field : Nat)
  deriving DecidableEq, Repr

instance exceptDecEq {ε α : Type u} [DecidableEq ε] [DecidableEq α] :
    DecidableEq (Except ε α) := fun x y =>
  match x, y with
  | .ok a, .ok b => if h : a = b then .isTrue (by rw [h]) else .isFalse (by simp [h])
  | .ok _, .error _ => .isFalse (by simp)
  | .error _, .ok _ => .isFalse (by simp)
  | .error e, .error f => if h : e = f then .isTrue (by rw [h]) else .isFalse (by simp [h])

/-- Character-wise uppercase of a string, the "uppercase form" of the
case-insensitive name matches (§4.4); written over the character list so
that it evaluates by reduction. -/
def strToUpper (s : String) : String :=
  String.mk (s.data.map Char.toUpper)

/-- Modelled from the spec: §3 "Argument" and §4.3 (`ruststep::ast` is not
under `src/`).  A typed record carries its argument list; per scenario S4 an
inline value is written `A((4.0, 5.0))`, i.e. the attribute values arrive as
one parenthesised list argument. -/
inductive Parameter where
  | integer (v : Int)
  | real (v : Rat)
  | str (v : String)
  | enumConst (v : String)
  | ref (id : Nat)
  | typedRecord (name : String) (parameters : List Parameter)
  | paramList (parameters : List Parameter)
  | omitted
  | redeclared

/-- Modelled from the spec: a simple record is a name plus an argument list
(§3 "Exchange instance"). -/
structure Record where
  name : String
  parameter : List Parameter

/-- Modelled from the spec: §3 — an exchange instance is a pair (id, record),
either simple or complex. -/
inductive EntityInstance where
  | simple (name : Nat) (record : Record)
  | complex

/-- Modelled from the spec: a data section is a sequence of entity
instances (§4.3). -/
structure DataSection where
  entities : List EntityInstance

/-- Modelled from the spec: `RValue` — a symbolic reference to another
instance, `#n` (entity) or `@n` (value, accepted with the same behavior,
§4.3). -/
inductive RValue where
  | entity (id : Nat)
  | value (id : Nat)
  deriving DecidableEq, Repr

/-- Numeric id carried by an `RValue`; per §4.3 both reference forms behave
alike. -/
def rvalueId : RValue → Nat
  | .entity id => id
  | .value id => id

/-- Modelled from the spec: `PlaceHolder<T>` with variants `Owned(T)` and
`Ref(RValue)` (§3 "Holder"; `ruststep::place_holder` is not under `src/`). -/
inductive PlaceHolder (α : Type) where
  | owned (v : α)
  | ref (rv : RValue)
  deriving DecidableEq, Repr

/-- `struct AHolder` of `ap000.rs`. -/
structure AHolder where
  x : Rat
  y : Rat
  deriving DecidableEq, Repr

/-- `struct A` of `ap000.rs`. -/
structure A where
  x : Rat
  y : Rat
  deriving DecidableEq, Repr

/-- `struct BHolder` of `ap000.rs`. -/
structure BHolder where
  z : Rat
  a : PlaceHolder AHolder
  deriving DecidableEq, Repr

/-- `struct B` of `ap000.rs`. -/
structure B where
  z : Rat
  a : A
  deriving DecidableEq, Repr

/-- `struct CHolder` of `ap000.rs`. -/
structure CHolder where
  p : PlaceHolder AHolder
  q : PlaceHolder BHolder
  deriving DecidableEq, Repr

/-- `struct C` of `ap000.rs`. -/
structure C where
  p : A
  q : B
  deriving DecidableEq, Repr

/-- `struct Ap000` of `ap000.rs`: one id → holder map per entity type. -/
structure Ap000 where
  a : List (Nat × AHolder)
  b : List (Nat × BHolder)
  c : List (Nat × CHolder)
  deriving DecidableEq, Repr

/-- `impl EntityTable<AHolder> for Ap000` (`ap000.rs` line 148); the
`HashMap::get_entity` body is modelled from the spec §4.5: `get(id)` fails
with `UnknownEntity(id)` if the id is absent. -/
def Ap000.get_entity_a (tables : Ap000) (id : Nat) : Except Error AHolder :=
  match mapGet id tables.a with
  | some h => .ok h
  | none => .error (.unknownEntity id)

/-- `impl EntityTable<BHolder> for Ap000` (`ap000.rs` line 154). -/
def Ap000.get_entity_b (tables : Ap000) (id : Nat) : Except Error BHolder :=
  match mapGet id tables.b with
  | some h => .ok h
  | none => .error (.unknownEntity id)

/-- `impl EntityTable<CHolder> for Ap000` (`ap000.rs` line 160). -/
def Ap000.get_entity_c (tables : Ap000) (id : Nat) : Except Error CHolder :=
  match mapGet id tables.c with
  | some h => .ok h
  | none => .error (.unknownEntity id)

/-- `impl Holder for AHolder` — `into_owned` (`ap000.rs` lines 180-187). -/
def AHolder.into_owned (h : AHolder) (_tables : Ap000) : Except Error A :=
  .ok ⟨h.x, h.y⟩

/-- Modelled from the spec: `PlaceHolder::into_owned` at carrier `AHolder`
(§4.5; the generic impl lives in `ruststep::place_holder`, not under `src/`):
`Owned(child)` recurses into the child with the same table, `Ref` looks the id
up under the expected entity type and recurses. -/
def PlaceHolder.into_ownedA (ph : PlaceHolder AHolder) (tables : Ap000) : Except Error A :=
  match ph with
  | .owned h => h.into_owned tables
  | .ref rv =>
    match tables.get_entity_a (rvalueId rv) with
    | .ok h => h.into_owned tables
    | .error e => .error e

/-- `impl Holder for BHolder` — `into_owned` (`ap000.rs` lines 203-213). -/
def BHolder.into_owned (h : BHolder) (tables : Ap000) : Except Error B :=
  match PlaceHolder.into_ownedA h.a tables with
  | .ok a => .ok ⟨h.z, a⟩
  | .error e => .error e

/-- Modelled from the spec: `PlaceHolder::into_owned` at carrier `BHolder`
(§4.5). -/
def PlaceHolder.into_ownedB (ph : PlaceHolder BHolder) (tables : Ap000) : Except Error B :=
  match ph with
  | .owned h => h.into_owned tables
  | .ref rv =>
    match tables.get_entity_b (rvalueId rv) with
    | .ok h => h.into_owned tables
    | .error e => .error e

/-- `impl Holder for CHolder` — `into_owned` (`ap000.rs` lines 229-239). -/
def CHolder.into_owned (h : CHolder) (tables : Ap000) : Except Error C :=
  match PlaceHolder.into_ownedA h.p tables with
  | .ok p =>
    match PlaceHolder.into_ownedB h.q tables with
    | .ok q => .ok ⟨p, q⟩
    | .error e => .error e
  | .error e => .error e

/-- `Ap000::a_iter` (`ap000.rs` lines 126-131): clone each stored holder and
resolve it against the table. -/
def Ap000.a_iter (tables : Ap000) : List (Except Error A) :=
  (mapValues tables.a).map (fun h => h.into_owned tables)

/-- `Ap000::b_iter` (`ap000.rs` lines 133-138). -/
def Ap000.b_iter (tables : Ap000) : List (Except Error B) :=
  (mapValues tables.b).map (fun h => h.into_owned tables)

/-- `Ap000::c_iter` (`ap000.rs` lines 140-145). -/
def Ap000.c_iter (tables : Ap000) : List (Except Error C) :=
  (mapValues tables.c).map (fun h => h.into_owned tables)

/-- Modelled from the spec: argument conversion for a primitive REAL
attribute (§4.4 conversion table); any other argument kind is a
`DeserializeError` carrying the field index. -/
def expectReal (field : Nat) : Parameter → Except Error Rat
  | .real v => .ok v
  | _ => .error (.typeMismatch field)

/-- Modelled from the spec: per S4 an inline typed record writes its
attribute values as a single parenthesised list; the nested holder is
deserialized from the values of that list. -/
def innerParams : List Parameter → List Parameter
  | [Parameter.paramList ps] => ps
  | ps => ps

/-- Modelled from the spec: `AHolder::deserialize` (§4.4; the serde-based
impl is generated outside `src/`): the record name must equal the entity name
case-insensitively on the uppercase form, the argument count must equal the
attribute count, and each argument converts to the attribute carrier. -/
def AHolder.deserialize (r : Record) : Except Error AHolder :=
  if strToUpper r.name == "A" then
    match r.parameter with
    | [p0, p1] =>
      match expectReal 0 p0, expectReal 1 p1 with
      | .ok x, .ok y => .ok ⟨x, y⟩
      | .error e, _ => .error e
      | _, .error e => .error e
    | ps => .error (.arityMismatch 2 ps.length)
  else .error (.nameMismatch "A" r.name)

/-- Modelled from the spec: argument conversion for a reference attribute of
entity type `a` (§4.4): `#n` becomes `PlaceHolder::Ref`, an inline typed
record deserializes recursively and is wrapped `PlaceHolder::Owned`. -/
def expectPlaceHolderA (field : Nat) : Parameter → Except Error (PlaceHolder AHolder)
  | .ref id => .ok (.ref (.entity id))
  | .typedRecord name ps =>
    match AHolder.deserialize ⟨name, innerParams ps⟩ with
    | .ok h => .ok (.owned h)
    | .error e => .error e
  | _ => .error (.typeMismatch field)

/-- Modelled from the spec: `BHolder::deserialize` (§4.4). -/
def BHolder.deserialize (r : Record) : Except Error BHolder :=
  if strToUpper r.name == "B" then
    match r.parameter with
    | [p0, p1] =>
      match expectReal 0 p0, expectPlaceHolderA 1 p1 with
      | .ok z, .ok a => .ok ⟨z, a⟩
      | .error e, _ => .error e
      | _, .error e => .error e
    | ps => .error (.arityMismatch 2 ps.length)
  else .error (.nameMismatch "B" r.name)

/-- Modelled from the spec: argument conversion for a reference attribute of
entity type `b` (§4.4). -/
def expectPlaceHolderB (field : Nat) : Parameter → Except Error (PlaceHolder BHolder)
  | .ref id => .ok (.ref (.entity id))
  | .typedRecord name ps =>
    match BHolder.deserialize ⟨name, innerParams ps⟩ with
    | .ok h => .ok (.owned h)
    | .error e => .error e
  | _ => .error (.typeMismatch field)

/-- Modelled from the spec: `CHolder::deserialize` (§4.4). -/
def CHolder.deserialize (r : Record) : Except Error CHolder :=
  if strToUpper r.name == "C" then
    match r.parameter with
    | [p0, p1] =>
      match expectPlaceHolderA 0 p0, expectPlaceHolderB 1 p1 with
      | .ok p, .ok q => .ok ⟨p, q⟩
      | .error e, _ => .error e
      | _, .error e => .error e
    | ps => .error (.arityMismatch 2 ps.length)
  else .error (.nameMismatch "C" r.name)

/-- Outcome of `Ap000::from_section`.  The source's `panic!()` arm (unknown
record name) and `unimplemented!()` arm (complex instance) do not return a
`Result`; they are modelled by the distinct `panicked` constructor. -/
inductive FromSectionResult where
  | ok (tables : Ap000)
  | err (e : Error)
  | panicked
  deriving DecidableEq, Repr

/-- Loop body of `Ap000::from_section` (`ap000.rs` lines 107-124): for each
simple instance, match the record name exactly against `"A"`, `"B"`, `"C"`,
deserialize and insert (the `is_none` duplicate information returned by
`HashMap::insert` is discarded by the source); the `?` on `deserialize`
aborts the whole loop with the record's error; any other name panics. -/
def Ap000.from_section_loop : List EntityInstance → Ap000 → FromSectionResult
  | [], acc => .ok acc
  | .simple name record :: rest, acc =>
    if record.name = "A" then
      match AHolder.deserialize record with
      | .ok h => Ap000.from_section_loop rest { acc with a := mapInsert name h acc.a }
      | .error e => .err e
    else if record.name = "B" then
      match BHolder.deserialize record with
      | .ok h => Ap000.from_section_loop rest { acc with b := mapInsert name h acc.b }
      | .error e => .err e
    else if record.name = "C" then
      match CHolder.deserialize record with
      | .ok h => Ap000.from_section_loop rest { acc with c := mapInsert name h acc.c }
      | .error e => .err e
    else .panicked
  | .complex :: _, _ => .panicked

/-- `Ap000::from_section` (`ap000.rs` lines 107-124): fold the section's
instances into three initially-empty maps. -/
def Ap000.from_section (sec : DataSection) : FromSectionResult :=
  Ap000.from_section_loop sec.entities ⟨[], [], []⟩

/-!
State-threading embedding of the resolution requests.  The Rust methods take
`&self`; to make the frame property of §4.7/§3 ("resolution never mutates the
table") a statement rather than a convention of the embedding, the same code
is re-translated with the table passed along explicitly.  The single modelling
primitive is `mapGetS`: a `HashMap::get` on a shared borrow hands back the map
it read.  Everything above it is composed step by step exactly like the
source, so the final table of each request is a computed value, not a
definition. -/

/-- `HashMap::get` as a state-passing read: the lookup result together with
the map the borrow hands back. -/
def mapGetS {α : Type u} (k : Nat) (m : List (Nat × α)) : Option α × List (Nat × α) :=
  (mapGet k m, m)

/-- State-passing form of `Ap000.get_entity_a`. -/
def Ap000.get_entity_aS (tables : Ap000) (id : Nat) : Except Error AHolder × Ap000 :=
  match mapGetS id tables.a with
  | (some h, a2) => (.ok h, { tables with a := a2 })
  | (none, a2) => (.error (.unknownEntity id), { tables with a := a2 })

/-- State-passing form of `Ap000.get_entity_b`. -/
def Ap000.get_entity_bS (tables : Ap000) (id : Nat) : Except Error BHolder × Ap000 :=
  match mapGetS id tables.b with
  | (some h, b2) => (.ok h, { tables with b := b2 })
  | (none, b2) => (.error (.unknownEntity id), { tables with b := b2 })

/-- State-passing form of `Ap000.get_entity_c`. -/
def Ap000.get_entity_cS (tables : Ap000) (id : Nat) : Except Error CHolder × Ap000 :=
  match mapGetS id tables.c with
  | (some h, c2) => (.ok h, { tables with c := c2 })
  | (none, c2) => (.error (.unknownEntity id), { tables with c := c2 })

/-- State-passing form of `AHolder.into_owned`. -/
def AHolder.into_ownedS (h : AHolder) (tables : Ap000) : Except Error A × Ap000 :=
  (.ok ⟨h.x, h.y⟩, tables)

/-- State-passing form of `PlaceHolder.into_ownedA`. -/
def PlaceHolder.into_ownedAS (ph : PlaceHolder AHolder) (tables : Ap000) :
    Except Error A × Ap000 :=
  match ph with
  | .owned h => h.into_ownedS tables
  | .ref rv =>
    match tables.get_entity_aS (rvalueId rv) with
    | (.ok h, t2) => h.into_ownedS t2
    | (.error e, t2) => (.error e, t2)

/-- State-passing form of `BHolder.into_owned`. -/
def BHolder.into_ownedS (h : BHolder) (tables : Ap000) : Except Error B × Ap000 :=
  match PlaceHolder.into_ownedAS h.a tables with
  | (.ok a, t2) => (.ok ⟨h.z, a⟩, t2)
  | (.error e, t2) => (.error e, t2)

/-- State-passing form of `PlaceHolder.into_ownedB`. -/
def PlaceHolder.into_ownedBS (ph : PlaceHolder BHolder) (tables : Ap000) :
    Except Error B × Ap000 :=
  match ph with
  | .owned h => h.into_ownedS tables
  | .ref rv =>
    match tables.get_entity_bS (rvalueId rv) with
    | (.ok h, t2) => h.into_ownedS t2
    | (.error e, t2) => (.error e, t2)

/-- State-passing form of `CHolder.into_owned`. -/
def CHolder.into_ownedS (h : CHolder) (tables : Ap000) : Except Error C × Ap000 :=
  match PlaceHolder.into_ownedAS h.p tables with
  | (.ok p, t2) =>
    match PlaceHolder.into_ownedBS h.q t2 with
    | (.ok q, t3) => (.ok ⟨p, q⟩, t3)
    | (.error e, t3) => (.error e, t3)
  | (.error e, t2) => (.error e, t2)

/-- State-passing resolution of a list of cloned `AHolder` values, as
`a_iter`'s `map` performs it. -/
def aIterLoopS : List AHolder → Ap000 → List (Except Error A) × Ap000
  | [], tables => ([], tables)
  | h :: rest, tables =>
    match h.into_ownedS tables with
    | (r, t2) =>
      match aIterLoopS rest t2 with
      | (rs, t3) => (r :: rs, t3)

/-- State-passing form of `Ap000.a_iter`. -/
def Ap000.a_iterS (tables : Ap000) : List (Except Error A) × Ap000 :=
  aIterLoopS (mapValues tables.a) tables

/-- State-passing resolution of a list of cloned `BHolder` values. -/
def bIterLoopS : List BHolder → Ap000 → List (Except Error B) × Ap000
  | [], tables => ([], tables)
  | h :: rest, tables =>
    match h.into_ownedS tables with
    | (r, t2) =>
      match bIterLoopS rest t2 with
      | (rs, t3) => (r :: rs, t3)

/-- State-passing form of `Ap000.b_iter`. -/
def Ap000.b_iterS (tables : Ap000) : List (Except Error B) × Ap000 :=
  bIterLoopS (mapValues tables.b) tables

/-- State-passing resolution of a list of cloned `CHolder` values. -/
def cIterLoopS : List CHolder → Ap000 → List (Except Error C) × Ap000
  | [], tables => ([], tables)
  | h :: rest, tables =>
    match h.into_ownedS tables with
    | (r, t2) =>
      match cIterLoopS rest t2 with
      | (rs, t3) => (r :: rs, t3)

/-- State-passing form of `Ap000.c_iter`. -/
def Ap000.c_iterS (tables : Ap000) : List (Except Error C) × Ap000 :=
  cIterLoopS (mapValues tables.c) tables

/-!
EXPRESS compiler (`espr`): parser-side attribute expansion
(`src/espr/src/parser/entity.rs`), the AST of type declarations
(`src/espr/src/ast/types.rs`), the legalizer
(`src/espr/src/semantics/type_decl.rs`) and its token rendering. -/

/-- `WidthSpec` of `ast/types.rs`. -/
structure WidthSpec where
  width : Nat
  fixed : Bool
  deriving DecidableEq, Repr

/-- `SimpleType` of `ast/types.rs` (the source's spelling `Boolen` is
kept). -/
inductive SimpleType where
  | number
  | real
  | integer
  | logical
  | boolen
  | string_ (width_spec : Option WidthSpec)
  | binary (width_spec : Option WidthSpec)
  deriving DecidableEq, Repr

/-- Modelled from the spec: bound expressions are preserved verbatim and
never evaluated (§3 "Bound"; `ast/expression.rs` is not under `src/`), so an
expression is carried as its raw text. -/
structure Expression where
  raw : String
  deriving DecidableEq, Repr

/-- `Bound` of `ast/types.rs`: a lower and an upper expression. -/
structure Bound where
  lower : Expression
  upper : Expression
  deriving DecidableEq, Repr

/-- `Extensiblity` of `ast/types.rs` (source spelling kept). -/
inductive Extensiblity where
  | none
  | extensible
  | genericEntity
  deriving DecidableEq, Repr

namespace Ast

/-- `ast::types::UnderlyingType` (`ast/types.rs` lines 28-62). -/
inductive UnderlyingType where
  | simple (ty : SimpleType)
  | reference (name : String)
  | set (bound : Option Bound) (base : UnderlyingType)
  | bag (bound : Option Bound) (base : UnderlyingType)
  | list (unique : Bool) (bound : Option Bound) (base : UnderlyingType)
  | array (unique : Bool) (optionalFlag : Bool) (bound : Bound) (base : UnderlyingType)
  | enumeration (extensiblity : Extensiblity) (items : List String)
  | select (extensiblity : Extensiblity) (types : List String)

/-- `ast::types::TypeDecl` (`ast/types.rs` lines 20-25); the `WHERE` clause
is retained but never read by the legalizer, so it is carried as raw
expressions. -/
structure TypeDecl where
  type_id : String
  underlying_type : UnderlyingType
  where_clause : Option (List Expression)

end Ast

/-- Modelled from the spec: `TypeRef`, the tagged handle a resolved name
becomes — `SimpleType(SimpleType)` or `Named(schema_id, decl_id)` (§3
"Namespace"; `semantics/mod.rs` is not under `src/`). -/
inductive TypeRef where
  | simpleType (ty : SimpleType)
  | named (schemaId : String) (declId : String)
  deriving DecidableEq, Repr

/-- `SemanticError` of the legalizer; modelled from the spec §7:
`UnresolvedName` on a reference miss, `DuplicateDeclaration` on a schema-level
clash (`semantics/mod.rs` is not under `src/`). -/
inductive SemanticError where
  | unresolvedName (name : String)
  | duplicateDeclaration (name : String)
  deriving DecidableEq, Repr

/-- Modelled from the spec: the namespace maps type/entity identifiers to
their resolved handles (§3 "Namespace"). -/
abbrev Namespace := List (String × TypeRef)

/-- Modelled from the spec: the lexical scope tracks the enclosing schema
(§3 "Namespace"). -/
structure Scope where
  schema : String
  deriving DecidableEq, Repr

/-- Modelled from the spec: `ns.lookup_type(scope, id)` — lookup fails with
`UnresolvedName` when the identifier is absent (§3, §4.2). -/
def Namespace.lookup_type (ns : Namespace) (_scope : Scope) (name : String) :
    Except SemanticError TypeRef :=
  match ns.find? (fun p => p.1 == name) with
  | some p => .ok p.2
  | none => .error (.unresolvedName name)

/-- Traversal of a select's member list, as the source's
`types.iter().map(|ty| ns.lookup_type(scope, ty)).collect()`: the first miss
aborts with its error. -/
def Namespace.lookup_all (ns : Namespace) (scope : Scope) :
    List String → Except SemanticError (List TypeRef)
  | [] => .ok []
  | n :: rest =>
    match ns.lookup_type scope n with
    | .error e => .error e
    | .ok r =>
      match Namespace.lookup_all ns scope rest with
      | .error e => .error e
      | .ok rs => .ok (r :: rs)

/-- Outcome of a `Legalize` call.  The source's `_ => unimplemented!()` arm
does not return a `Result`; it is modelled by the distinct `panicked`
constructor. -/
inductive LegalizeResult (α : Type) where
  | ok (value : α)
  | err (e : SemanticError)
  | panicked
  deriving DecidableEq, Repr

namespace Semantics

/-- `semantics::type_decl::UnderlyingType` (`semantics/type_decl.rs` lines
5-11). -/
inductive UnderlyingType where
  | simple (r : TypeRef)
  | reference (r : TypeRef)
  | enumeration (items : List String)
  | select (refs : List TypeRef)
  deriving DecidableEq, Repr

/-- `impl Legalize for UnderlyingType` (`semantics/type_decl.rs` lines
13-37): `Simple` wraps the simple type, `Reference` resolves through the
namespace, `Enumeration` keeps its items as strings, `Select` resolves every
member; every other variant (the aggregate forms `Set`, `Bag`, `List`,
`Array`) falls into the catch-all and panics. -/
def UnderlyingType.legalize (ns : Namespace) (scope : Scope)
    (input : Ast.UnderlyingType) : LegalizeResult UnderlyingType :=
  match input with
  | .simple s => .ok (.simple (.simpleType s))
  | .reference name =>
    match ns.lookup_type scope name with
    | .ok r => .ok (.reference r)
    | .error e => .err e
  | .enumeration _ items => .ok (.enumeration items)
  | .select _ types =>
    match ns.lookup_all scope types with
    | .ok refs => .ok (.select refs)
    | .error e => .err e
  | _ => .panicked

/-- `semantics::type_decl::TypeDecl` (`semantics/type_decl.rs` lines
39-43). -/
structure TypeDecl where
  type_id : String
  underlying_type : UnderlyingType
  deriving DecidableEq, Repr

/-- `impl Legalize for TypeDecl` (`semantics/type_decl.rs` lines 45-57). -/
def TypeDecl.legalize (ns : Namespace) (scope : Scope)
    (type_decl : Ast.TypeDecl) : LegalizeResult TypeDecl :=
  match UnderlyingType.legalize ns scope type_decl.underlying_type with
  | .ok u => .ok ⟨type_decl.type_id, u⟩
  | .err e => .err e
  | .panicked => .panicked

end Semantics

/-- Split a character list at underscores; the separators are dropped. -/
def splitOnUnderscore : List Char → List (List Char)
  | [] => [[]]
  | ch :: rest =>
    if ch = '_' then [] :: splitOnUnderscore rest
    else
      match splitOnUnderscore rest with
      | [] => [[ch]]
      | w :: ws => (ch :: w) :: ws

/-- Capitalise one word: first character uppercased, the rest lowercased. -/
def capitalizeWord : List Char → List Char
  | [] => []
  | ch :: rest => ch.toUpper :: rest.map Char.toLower

/-- Modelled from the spec plus the `inflector` crate the source calls:
`to_pascal_case` capitalises each underscore-separated word and joins them
(`"foo_bar"` becomes `"FooBar"`). -/
def toPascalCase (s : String) : String :=
  String.mk (((splitOnUnderscore s.data).map capitalizeWord).flatten)

/-- A string already in snake_case: only lowercase letters, digits and
underscores. -/
def isSnakeCase (s : String) : Bool :=
  s.data.all (fun ch => ch.isLower || ch == '_' || ch.isDigit)

/-- Identifier-level abstraction of the token stream `ToTokens for TypeDecl`
emits (`semantics/type_decl.rs` lines 59-87): one item per match arm, with
exactly the identifiers the `format_ident!` calls build. -/
inductive GeneratedItem where
  | typeAlias (id : String) (target : TypeRef)
  | enumDef (id : String) (items : List String)
  | selectDef (id : String) (types : List TypeRef)
  deriving DecidableEq, Repr

/-- `impl ToTokens for TypeDecl` (`semantics/type_decl.rs` lines 59-87): the
type name is rendered with `to_pascal_case`; an enumeration renders every item
with `to_pascal_case` as well; simple and reference types alias the resolved
target; a select becomes an enum over the member types. -/
def Semantics.TypeDecl.to_tokens (d : Semantics.TypeDecl) : GeneratedItem :=
  match d.underlying_type with
  | .simple r => .typeAlias (toPascalCase d.type_id) r
  | .reference r => .typeAlias (toPascalCase d.type_id) r
  | .enumeration items => .enumDef (toPascalCase d.type_id) (items.map toPascalCase)
  | .select types => .selectDef (toPascalCase d.type_id) types

/-- `ParameterType` of `parser/entity.rs` (lines 17-21): the parser-side
type of an attribute, named or simple. -/
inductive ParameterType where
  | named (name : String)
  | simple (ty : SimpleType)
  deriving DecidableEq, Repr

/-- `Entity` of `parser/entity.rs` (lines 6-15). -/
structure Entity where
  name : String
  attributes : List (String × ParameterType)
  deriving DecidableEq, Repr

/-- The comma-list expansion inside `entity_decl` (`parser/entity.rs` lines
90-95): each `explicit_attr` group `(attrs, ty)` is mapped to one attribute
per name, the type cloned per attribute, and the groups are flattened in
source order. -/
def expandAttributes (groups : List (List String × ParameterType)) :
    List (String × ParameterType) :=
  (groups.map (fun g => g.1.map (fun attr => (attr, g.2)))).flatten

/-- `entity_decl` (`parser/entity.rs` lines 73-102), restricted to the value
it constructs from the already-parsed head name and `explicit_attr` groups
(the surrounding nom combinators live in modules outside `src/`). -/
def entity_decl_value (name : String) (groups : List (List String × ParameterType)) :
    Entity :=
  ⟨name, expandAttributes groups⟩

/-!
Custom `Any` dispatch for the subtype example (`ap000.rs` lines 241-292).
The universe of `BaseAny` implementors in the source is exactly `{Base, Sub}`;
a trait object `&dyn BaseAny` is a value of one of the two, and `TypeId` is
the tag telling which.  The namespace mirrors the `ap000` module, and keeps
`Sub` from clashing with the root namespace. -/

namespace ap000

/-- `struct Base` of `ap000.rs`. -/
structure Base where
  a : Rat
  deriving DecidableEq, Repr

/-- `struct Sub` of `ap000.rs`. -/
structure Sub where
  base : Base
  b : Rat
  deriving DecidableEq, Repr

/-- `std::any::TypeId` restricted to the two `BaseAny` implementors. -/
inductive BaseAnyTypeId where
  | base
  | sub
  deriving DecidableEq, Repr

/-- A `&dyn BaseAny` trait object: one of the two implementors. -/
inductive BaseAnyDyn where
  | base (v : Base)
  | sub (v : Sub)
  deriving DecidableEq, Repr

/-- `Any::type_id` on the trait object: the tag of the concrete type behind
it. -/
def BaseAnyDyn.type_id : BaseAnyDyn → BaseAnyTypeId
  | .base _ => .base
  | .sub _ => .sub

/-- `<dyn BaseAny>::is::<Sub>` (`ap000.rs` lines 258-260): compare the
object's `TypeId` with the target's. -/
def BaseAnyDyn.is (d : BaseAnyDyn) (target : BaseAnyTypeId) : Bool :=
  d.type_id == target

/-- The raw pointer cast `&*(self as *const dyn BaseAny as *const Base)`:
reinterpreting the object at type `Base`, meaningful exactly when the object
is a `Base`. -/
def castToBase : BaseAnyDyn → Option Base
  | .base v => some v
  | _ => none

/-- The raw pointer cast at type `Sub`. -/
def castToSub : BaseAnyDyn → Option Sub
  | .sub v => some v
  | _ => none

/-- `<dyn BaseAny>::downcast_ref::<Base>` (`ap000.rs` lines 261-269): cast
only behind the `is` type check, `None` otherwise. -/
def BaseAnyDyn.downcast_ref_base (d : BaseAnyDyn) : Option Base :=
  if d.is .base then castToBase d else none

/-- `<dyn BaseAny>::downcast_ref::<Sub>` (`ap000.rs` lines 261-269). -/
def BaseAnyDyn.downcast_ref_sub (d : BaseAnyDyn) : Option Sub :=
  if d.is .sub then castToSub d else none

/-- `<dyn BaseAny>::downcast_mut::<Base>` (`ap000.rs` lines 270-278): same
type check, mutable reinterpretation. -/
def BaseAnyDyn.downcast_mut_base (d : BaseAnyDyn) : Option Base :=
  if d.is .base then castToBase d else none

/-- `<dyn BaseAny>::downcast_mut::<Sub>` (`ap000.rs` lines 270-278). -/
def BaseAnyDyn.downcast_mut_sub (d : BaseAnyDyn) : Option Sub :=
  if d.is .sub then castToSub d else none

end ap000

/-!
Claim theorems. -/

/-- Claim C6: a comma list of n attribute names followed by one parameter
type yields exactly n attributes, in source order, each carrying its own
structurally equal copy of the type; stated for an `explicit_attr` group in
any position of the `entity_decl` body. -/
theorem entity_decl_expands_comma_list :
    ∀ (ename : String) (names : List String) (ty : ParameterType)
      (groups : List (List String × ParameterType)),
    expandAttributes ((names, ty) :: groups)
        = names.map (fun n => (n, ty)) ++ expandAttributes groups
    ∧ (expandAttributes [(names, ty)]).length = names.length
    ∧ (entity_decl_value ename ((names, ty) :: groups)).attributes
        = names.map (fun n => (n, ty)) ++ expandAttributes groups := by
  intro ename names ty groups
  refine ⟨?_, ?_, ?_⟩ <;> simp [expandAttributes, entity_decl_value]

/-- Claim C7, counterexample: the claim says an aggregate underlying type
legalizes successfully with its structure passed through; on a concrete
`TYPE x = SET OF REAL` declaration the legalizer instead hits the
`unimplemented` catch-all and panics. -/
theorem legalize_set_of_real_panics :
    Semantics.TypeDecl.legalize [] ⟨"s"⟩
        ⟨"x", Ast.UnderlyingType.set Option.none (Ast.UnderlyingType.simple SimpleType.real),
          Option.none⟩
      = LegalizeResult.panicked := rfl

/-- Claim C7, amended: legalization of a type declaration whose underlying
type is an aggregate form (Set, Bag, List or Array over any base) does not
pass the structure through — it falls into the catch-all arm and panics;
only Simple, Reference, Enumeration and Select are handled. -/
theorem legalize_aggregate_panics :
    ∀ (ns : Namespace) (scope : Scope) (id : String)
      (wc : Option (List Expression)) (bound : Option Bound) (b2 : Bound)
      (uniq opt : Bool) (base : Ast.UnderlyingType),
    Semantics.TypeDecl.legalize ns scope ⟨id, .set bound base, wc⟩ = .panicked
    ∧ Semantics.TypeDecl.legalize ns scope ⟨id, .bag bound base, wc⟩ = .panicked
    ∧ Semantics.TypeDecl.legalize ns scope ⟨id, .list uniq bound base, wc⟩ = .panicked
    ∧ Semantics.TypeDecl.legalize ns scope ⟨id, .array uniq opt b2 base, wc⟩ = .panicked := by
  intro ns scope id wc bound b2 uniq opt base
  exact ⟨rfl, rfl, rfl, rfl⟩

/-- Claim C9, counterexample: for the declaration `TYPE my_type =
ENUMERATION OF (foo_bar, baz)` the generated enumeration renders the items
as `FooBar`, `Baz` — PascalCase, not the snake_case the claim states (the
source items themselves are already snake_case). -/
theorem type_decl_enum_snake_case_refuted :
    Semantics.TypeDecl.to_tokens ⟨"my_type", .enumeration ["foo_bar", "baz"]⟩
        = GeneratedItem.enumDef "MyType" ["FooBar", "Baz"]
    ∧ isSnakeCase "FooBar" = false
    ∧ isSnakeCase "foo_bar" = true := by
  refine ⟨?_, by decide, by decide⟩
  simp only [Semantics.TypeDecl.to_tokens]
  decide

/-- Claim C9, amended: for a legalized enumeration type declaration,
`TypeDecl::to_tokens` renders the type name as a PascalCase identifier and
every enumeration item name as a PascalCase identifier as well (not
snake_case). -/
theorem type_decl_enum_items_pascal_case :
    ∀ (id : String) (items : List String),
    Semantics.TypeDecl.to_tokens ⟨id, .enumeration items⟩
      = GeneratedItem.enumDef (toPascalCase id) (items.map toPascalCase) := by
  intro id items
  rfl

/-- Claim C10: over the `BaseAny` universe `{Base, Sub}`, `downcast_ref`
(and `downcast_mut`) return `some` of the original value exactly when the
target type's `TypeId` equals the object's, `none` otherwise; the raw
pointer cast sits behind the `is` check and succeeds exactly when that check
does. -/
theorem base_any_downcast_type_check :
    (∀ (d : ap000.BaseAnyDyn) (t : ap000.BaseAnyTypeId), d.is t = (d.type_id == t))
    ∧ (∀ v : ap000.Sub, ap000.BaseAnyDyn.downcast_ref_sub (.sub v) = some v)
    ∧ (∀ v : ap000.Base, ap000.BaseAnyDyn.downcast_ref_sub (.base v) = none)
    ∧ (∀ v : ap000.Base, ap000.BaseAnyDyn.downcast_ref_base (.base v) = some v)
    ∧ (∀ v : ap000.Sub, ap000.BaseAnyDyn.downcast_ref_base (.sub v) = none)
    ∧ (∀ d : ap000.BaseAnyDyn,
        (ap000.BaseAnyDyn.downcast_ref_sub d).isSome = (d.type_id == .sub)
        ∧ (ap000.BaseAnyDyn.downcast_ref_base d).isSome = (d.type_id == .base)
        ∧ (ap000.castToSub d).isSome = d.is .sub
        ∧ (ap000.castToBase d).isSome = d.is .base
        ∧ ap000.BaseAnyDyn.downcast_mut_sub d = ap000.BaseAnyDyn.downcast_ref_sub d
        ∧ ap000.BaseAnyDyn.downcast_mut_base d = ap000.BaseAnyDyn.downcast_ref_base d) := by
  refine ⟨?_, ?_, ?_, ?_, ?_, ?_⟩
  · intro d t
    rfl
  · intro v
    rfl
  · intro v
    rfl
  · intro v
    rfl
  · intro v
    rfl
  · intro d
    cases d <;> exact ⟨rfl, rfl, rfl, rfl, rfl, rfl⟩

/-- True exactly on a `CyclicReference` error result. -/
def isCyclicErr {α : Type} : Except Error α → Bool
  | .error (.cyclicReference _) => true
  | _ => false

/-- Whether an error is a cycle error does not depend on the result type it
is reported at. -/
theorem isCyclicErr_error (α β : Type) (e : Error) :
    isCyclicErr (Except.error e : Except Error α)
      = isCyclicErr (Except.error e : Except Error β) := by
  cases e <;> rfl

/-- Resolving an `AHolder` never reports a cycle. -/
theorem isCyclicErr_into_owned_a (tables : Ap000) (h : AHolder) :
    isCyclicErr (h.into_owned tables) = false := rfl

/-- Resolving an `AHolder` placeholder never reports a cycle. -/
theorem isCyclicErr_into_ownedA (tables : Ap000) (ph : PlaceHolder AHolder) :
    isCyclicErr (PlaceHolder.into_ownedA ph tables) = false := by
  cases ph with
  | owned h => rfl
  | ref rv =>
    simp only [PlaceHolder.into_ownedA, Ap000.get_entity_a]
    cases mapGet (rvalueId rv) tables.a <;> rfl

/-- Resolving a `BHolder` never reports a cycle. -/
theorem isCyclicErr_into_owned_b (tables : Ap000) (h : BHolder) :
    isCyclicErr (h.into_owned tables) = false := by
  have ha := isCyclicErr_into_ownedA tables h.a
  unfold BHolder.into_owned
  split
  · rfl
  · rename_i e heq
    rw [heq] at ha
    exact (isCyclicErr_error B A e).trans ha

/-- Resolving a `BHolder` placeholder never reports a cycle. -/
theorem isCyclicErr_into_ownedB (tables : Ap000) (ph : PlaceHolder BHolder) :
    isCyclicErr (PlaceHolder.into_ownedB ph tables) = false := by
  cases ph with
  | owned h => exact isCyclicErr_into_owned_b tables h
  | ref rv =>
    simp only [PlaceHolder.into_ownedB, Ap000.get_entity_b]
    cases mapGet (rvalueId rv) tables.b with
    | some h => exact isCyclicErr_into_owned_b tables h
    | none => rfl

/-- Resolving a `CHolder` never reports a cycle. -/
theorem isCyclicErr_into_owned_c (tables : Ap000) (h : CHolder) :
    isCyclicErr (h.into_owned tables) = false := by
  have hp := isCyclicErr_into_ownedA tables h.p
  have hq := isCyclicErr_into_ownedB tables h.q
  unfold CHolder.into_owned
  split
  · split
    · rfl
    · rename_i e heq
      rw [heq] at hq
      exact (isCyclicErr_error C B e).trans hq
  · rename_i e heq
    rw [heq] at hp
    exact (isCyclicErr_error C A e).trans hp

/-- No item of a resolved list is a cycle error when no single resolution
is. -/
theorem any_isCyclicErr_map {α β : Type} (hs : List α) (f : α → Except Error β)
    (hf : ∀ h, isCyclicErr (f h) = false) :
    (hs.map f).any isCyclicErr = false := by
  induction hs with
  | nil => rfl
  | cons h rest ih => simp [List.any_cons, hf h, ih]

/-- Data section whose `B` record references its own instance id `#1`, the
shape of the claim's `#1 = E(#1)` example (in ap000 the referenced field of
`b` is of entity type `a`, so the reference resolves in the `a` table where
`#1` also exists). -/
def selfRefSection : DataSection :=
  ⟨[.simple 1 ⟨"A", [.real 10, .real 20]⟩,
    .simple 1 ⟨"B", [.real 5, .ref 1]⟩]⟩

/-- The table the self-referencing section loads to. -/
def selfRefTable : Ap000 :=
  ⟨[(1, ⟨10, 20⟩)], [(1, ⟨5, .ref (.entity 1)⟩)], []⟩

/-- Claim C1, counterexample: loading a section whose record `#1 = B(5.0,
#1)` revisits instance id 1 while id 1 is on the resolution stack; `b_iter`
resolves that entry successfully instead of yielding
`Err(CyclicReference(1))`. -/
theorem ap000_self_reference_resolves_ok :
    Ap000.from_section selfRefSection = .ok selfRefTable
    ∧ Ap000.b_iter selfRefTable = [.ok ⟨5, ⟨10, 20⟩⟩]
    ∧ (Except.ok (⟨5, ⟨10, 20⟩⟩ : B) : Except Error B)
        ≠ .error (.cyclicReference 1) := by
  refine ⟨by decide, by decide, by simp⟩

/-- Claim C1, amended: in ap000 the holder reference structure is acyclic by
type (`c` refers to `a` and `b`, `b` refers to `a`, `a` to nothing), so
every resolution request terminates and `CyclicReference` is never returned
— a stored holder whose reference chain revisits a raw instance id already
on the resolution stack (necessarily at a different entity type) resolves
like any other reference; there is no visited-id set. -/
theorem ap000_resolution_never_cyclic :
    ∀ (tables : Ap000),
    (∀ h : AHolder, isCyclicErr (h.into_owned tables) = false)
    ∧ (∀ h : BHolder, isCyclicErr (h.into_owned tables) = false)
    ∧ (∀ h : CHolder, isCyclicErr (h.into_owned tables) = false)
    ∧ (Ap000.a_iter tables).any isCyclicErr = false
    ∧ (Ap000.b_iter tables).any isCyclicErr = false
    ∧ (Ap000.c_iter tables).any isCyclicErr = false := by
  intro tables
  refine ⟨isCyclicErr_into_owned_a tables, isCyclicErr_into_owned_b tables,
    isCyclicErr_into_owned_c tables, ?_, ?_, ?_⟩
  · exact any_isCyclicErr_map _ _ (isCyclicErr_into_owned_a tables)
  · exact any_isCyclicErr_map _ _ (isCyclicErr_into_owned_b tables)
  · exact any_isCyclicErr_map _ _ (isCyclicErr_into_owned_c tables)

/-- Data section whose first record is well-formed and whose second record
has the wrong arity for entity `a`. -/
def badRecordSection : DataSection :=
  ⟨[.simple 1 ⟨"A", [.real 1, .real 2]⟩,
    .simple 2 ⟨"A", [.str "oops"]⟩]⟩

/-- Claim C2, counterexample: one bad record makes `from_section` return the
record's deserialization error for the whole section — no table is produced,
so the successfully deserialized record `#1` is not retained anywhere. -/
theorem from_section_partial_load_refuted :
    Ap000.from_section badRecordSection = .err (.arityMismatch 2 1)
    ∧ (FromSectionResult.err (.arityMismatch 2 1)
        ≠ FromSectionResult.ok ⟨[(1, ⟨1, 2⟩)], [], []⟩) := by
  refine ⟨by decide, by simp⟩

/-- Claim C2, amended: a deserialization error in any record aborts the
whole `from_section` call — the `?` operator propagates the first failing
record's error immediately, whatever records follow and whatever was already
loaded, and no table is returned. -/
theorem from_section_deserialize_error_aborts :
    ∀ (name : Nat) (r : Record) (rest : List EntityInstance) (acc : Ap000)
      (e : Error),
    (r.name = "A" → AHolder.deserialize r = .error e →
      Ap000.from_section_loop (.simple name r :: rest) acc = .err e)
    ∧ (r.name = "B" → BHolder.deserialize r = .error e →
      Ap000.from_section_loop (.simple name r :: rest) acc = .err e)
    ∧ (r.name = "C" → CHolder.deserialize r = .error e →
      Ap000.from_section_loop (.simple name r :: rest) acc = .err e)
    ∧ (∀ sec : DataSection,
      Ap000.from_section sec = Ap000.from_section_loop sec.entities ⟨[], [], []⟩) := by
  intro name r rest acc e
  refine ⟨?_, ?_, ?_, fun _ => rfl⟩
  · intro hn hd
    simp [Ap000.from_section_loop, hn, hd]
  · intro hn hd
    simp [Ap000.from_section_loop, hn, hd]
  · intro hn hd
    simp [Ap000.from_section_loop, hn, hd]

/-- Claim C2, witness for the amended theorem at the failing record of
`badRecordSection`. -/
theorem from_section_deserialize_error_aborts_witness :
    Ap000.from_section_loop [.simple 2 ⟨"A", [.str "oops"]⟩] ⟨[(1, ⟨1, 2⟩)], [], []⟩
      = .err (.arityMismatch 2 1) :=
  (from_section_deserialize_error_aborts 2 ⟨"A", [.str "oops"]⟩ [] ⟨[(1, ⟨1, 2⟩)], [], []⟩
    (.arityMismatch 2 1)).1 rfl rfl

/-- Data section with two `A` records sharing instance id 1. -/
def duplicateIdSection : DataSection :=
  ⟨[.simple 1 ⟨"A", [.real 1, .real 2]⟩,
    .simple 1 ⟨"A", [.real 3, .real 4]⟩]⟩

/-- Claim C3, counterexample: loading a section with a duplicated instance
id within entity type `a` succeeds — the boolean returned by
`HashMap::insert(..).is_none()` is discarded, the second record silently
replaces the first, and no `DuplicateId` error is raised. -/
theorem from_section_duplicate_id_succeeds :
    Ap000.from_section duplicateIdSection = .ok ⟨[(1, ⟨3, 4⟩)], [], []⟩
    ∧ (FromSectionResult.ok (⟨[(1, ⟨3, 4⟩)], [], []⟩ : Ap000)
        ≠ FromSectionResult.err (Error.duplicateId 1 "a")) := by
  refine ⟨by decide, by simp⟩

/-- Claim C3, amended: two simple instances sharing an id within entity type
`a` load without error; the holder deserialized from the later record
replaces the earlier one under that id. -/
theorem from_section_duplicate_id_last_wins :
    ∀ (id : Nat) (r1 r2 : Record) (h1 h2 : AHolder),
    r1.name = "A" → r2.name = "A" →
    AHolder.deserialize r1 = .ok h1 → AHolder.deserialize r2 = .ok h2 →
    Ap000.from_section ⟨[.simple id r1, .simple id r2]⟩ = .ok ⟨[(id, h2)], [], []⟩ := by
  intro id r1 r2 h1 h2 hn1 hn2 hd1 hd2
  simp [Ap000.from_section, Ap000.from_section_loop, hn1, hn2, hd1, hd2, mapInsert]

/-- Claim C3, witness for the amended theorem on `duplicateIdSection`. -/
theorem from_section_duplicate_id_last_wins_witness :
    Ap000.from_section duplicateIdSection = .ok ⟨[(1, ⟨3, 4⟩)], [], []⟩ :=
  from_section_duplicate_id_last_wins 1 ⟨"A", [.real 1, .real 2]⟩
    ⟨"A", [.real 3, .real 4]⟩ ⟨1, 2⟩ ⟨3, 4⟩ rfl rfl rfl rfl

/-- The S6 data section: `#2 = B(3.0, #99);` with no `#99`. -/
def s6section : DataSection := ⟨[.simple 2 ⟨"B", [.real 3, .ref 99]⟩]⟩

/-- The table S6 loads to. -/
def s6table : Ap000 := ⟨[], [(2, ⟨3, .ref (.entity 99)⟩)], []⟩

/-- Claim C4: resolving a holder whose placeholder references an id absent
from the expected entity's map fails with `UnknownEntity` carrying that id;
on the S6 section, `b_iter` yields exactly one item, `Err(UnknownEntity
99)`. -/
theorem dangling_reference_unknown_entity :
    (∀ (tables : Ap000) (z : Rat) (rv : RValue),
      mapGet (rvalueId rv) tables.a = none →
      BHolder.into_owned ⟨z, .ref rv⟩ tables
        = .error (.unknownEntity (rvalueId rv)))
    ∧ Ap000.from_section s6section = .ok s6table
    ∧ Ap000.b_iter s6table = [.error (.unknownEntity 99)] := by
  refine ⟨?_, by decide, by decide⟩
  intro tables z rv h
  simp [BHolder.into_owned, PlaceHolder.into_ownedA, Ap000.get_entity_a, h]

/-- Claim C4, witness: the general statement applied to the S6 table
itself. -/
theorem dangling_reference_unknown_entity_witness :
    BHolder.into_owned ⟨3, .ref (.entity 99)⟩ s6table
      = .error (.unknownEntity 99) :=
  dangling_reference_unknown_entity.1 s6table 3 (.entity 99) rfl

/-- Data section whose single record is written with the lowercase name
`a`. -/
def lowercaseSection : DataSection := ⟨[.simple 1 ⟨"a", [.real 1, .real 2]⟩]⟩

/-- Claim C5, counterexample: a record whose name is written `a` instead of
`A` is not dispatched to the `a` entity table — `from_section` panics on the
catch-all arm, even though the record would deserialize fine under the
case-insensitive name check of the deserializer itself. -/
theorem from_section_lowercase_name_panics :
    Ap000.from_section lowercaseSection = .panicked
    ∧ AHolder.deserialize ⟨"a", [.real 1, .real 2]⟩ = .ok ⟨1, 2⟩ := by
  refine ⟨by decide, by decide⟩

/-- Claim C5, amended: `from_section` dispatches on the record name exactly
as written, matching it against the literals `"A"`, `"B"`, `"C"`; a matching
record is deserialized by that entity's holder deserializer and inserted
into that entity's table, and any other spelling — including any other
casing of an entity name — falls into the catch-all arm and panics. -/
theorem from_section_dispatch_exact_name :
    ∀ (name : Nat) (r : Record) (rest : List EntityInstance) (acc : Ap000),
    (r.name ≠ "A" → r.name ≠ "B" → r.name ≠ "C" →
      Ap000.from_section_loop (.simple name r :: rest) acc = .panicked)
    ∧ (∀ h : AHolder, r.name = "A" → AHolder.deserialize r = .ok h →
      Ap000.from_section_loop (.simple name r :: rest) acc
        = Ap000.from_section_loop rest { acc with a := mapInsert name h acc.a })
    ∧ (∀ h : BHolder, r.name = "B" → BHolder.deserialize r = .ok h →
      Ap000.from_section_loop (.simple name r :: rest) acc
        = Ap000.from_section_loop rest { acc with b := mapInsert name h acc.b })
    ∧ (∀ h : CHolder, r.name = "C" → CHolder.deserialize r = .ok h →
      Ap000.from_section_loop (.simple name r :: rest) acc
        = Ap000.from_section_loop rest { acc with c := mapInsert name h acc.c }) := by
  intro name r rest acc
  refine ⟨?_, ?_, ?_, ?_⟩
  · intro h1 h2 h3
    simp [Ap000.from_section_loop, h1, h2, h3]
  · intro h hn hd
    simp [Ap000.from_section_loop, hn, hd]
  · intro h hn hd
    simp [Ap000.from_section_loop, hn, hd]
  · intro h hn hd
    simp [Ap000.from_section_loop, hn, hd]

/-- Claim C5, witness: the lowercase record of `lowercaseSection` hits the
catch-all and panics, and the same arguments under the exact name `"A"` are
dispatched into the `a` table. -/
theorem from_section_dispatch_exact_name_witness :
    Ap000.from_section_loop [.simple 1 ⟨"a", [.real 1, .real 2]⟩] ⟨[], [], []⟩
        = .panicked
    ∧ Ap000.from_section_loop [.simple 1 ⟨"A", [.real 1, .real 2]⟩] ⟨[], [], []⟩
        = Ap000.from_section_loop [] ⟨mapInsert 1 ⟨1, 2⟩ [], [], []⟩ :=
  ⟨(from_section_dispatch_exact_name 1 ⟨"a", [.real 1, .real 2]⟩ [] ⟨[], [], []⟩).1
      (by decide) (by decide) (by decide),
    (from_section_dispatch_exact_name 1 ⟨"A", [.real 1, .real 2]⟩ [] ⟨[], [], []⟩).2.1
      ⟨1, 2⟩ rfl rfl⟩

/-- A stateful `get` on the `a` map returns the pure result and hands the
table back unchanged. -/
theorem get_entity_aS_frame (tables : Ap000) (id : Nat) :
    tables.get_entity_aS id = (tables.get_entity_a id, tables) := by
  unfold Ap000.get_entity_aS Ap000.get_entity_a mapGetS
  cases mapGet id tables.a <;> rfl

/-- A stateful `get` on the `b` map returns the pure result and hands the
table back unchanged. -/
theorem get_entity_bS_frame (tables : Ap000) (id : Nat) :
    tables.get_entity_bS id = (tables.get_entity_b id, tables) := by
  unfold Ap000.get_entity_bS Ap000.get_entity_b mapGetS
  cases mapGet id tables.b <;> rfl

/-- A stateful `get` on the `c` map returns the pure result and hands the
table back unchanged. -/
theorem get_entity_cS_frame (tables : Ap000) (id : Nat) :
    tables.get_entity_cS id = (tables.get_entity_c id, tables) := by
  unfold Ap000.get_entity_cS Ap000.get_entity_c mapGetS
  cases mapGet id tables.c <;> rfl

/-- Stateful resolution of an `AHolder` placeholder agrees with the pure one
and preserves the table. -/
theorem into_ownedAS_frame (tables : Ap000) (ph : PlaceHolder AHolder) :
    PlaceHolder.into_ownedAS ph tables = (PlaceHolder.into_ownedA ph tables, tables) := by
  cases ph with
  | owned h => rfl
  | ref rv =>
    cases hr : tables.get_entity_a (rvalueId rv) <;>
      simp [PlaceHolder.into_ownedAS, PlaceHolder.into_ownedA,
        get_entity_aS_frame, hr, AHolder.into_ownedS, AHolder.into_owned]

/-- Stateful resolution of a `BHolder` agrees with the pure one and
preserves the table. -/
theorem into_ownedS_b_frame (tables : Ap000) (h : BHolder) :
    h.into_ownedS tables = (h.into_owned tables, tables) := by
  cases hr : PlaceHolder.into_ownedA h.a tables <;>
    simp [BHolder.into_ownedS, BHolder.into_owned, into_ownedAS_frame, hr]

/-- Stateful resolution of a `BHolder` placeholder agrees with the pure one
and preserves the table. -/
theorem into_ownedBS_frame (tables : Ap000) (ph : PlaceHolder BHolder) :
    PlaceHolder.into_ownedBS ph tables = (PlaceHolder.into_ownedB ph tables, tables) := by
  cases ph with
  | owned h => exact into_ownedS_b_frame tables h
  | ref rv =>
    cases hr : tables.get_entity_b (rvalueId rv) <;>
      simp [PlaceHolder.into_ownedBS, PlaceHolder.into_ownedB,
        get_entity_bS_frame, hr, into_ownedS_b_frame]

/-- Stateful resolution of a `CHolder` agrees with the pure one and
preserves the table. -/
theorem into_ownedS_c_frame (tables : Ap000) (h : CHolder) :
    h.into_ownedS tables = (h.into_owned tables, tables) := by
  cases hr : PlaceHolder.into_ownedA h.p tables with
  | ok p =>
    cases hr2 : PlaceHolder.into_ownedB h.q tables <;>
      simp [CHolder.into_ownedS, CHolder.into_owned, into_ownedAS_frame,
        into_ownedBS_frame, hr, hr2]
  | error e =>
    simp [CHolder.into_ownedS, CHolder.into_owned, into_ownedAS_frame, hr]

/-- Stateful iteration over cloned `AHolder` values agrees with a pure map
and preserves the table. -/
theorem aIterLoopS_frame (tables : Ap000) (hs : List AHolder) :
    aIterLoopS hs tables = (hs.map (fun h => h.into_owned tables), tables) := by
  induction hs with
  | nil => rfl
  | cons h rest ih =>
    simp [aIterLoopS, AHolder.into_ownedS, AHolder.into_owned, ih]

/-- Stateful iteration over cloned `BHolder` values agrees with a pure map
and preserves the table. -/
theorem bIterLoopS_frame (tables : Ap000) (hs : List BHolder) :
    bIterLoopS hs tables = (hs.map (fun h => h.into_owned tables), tables) := by
  induction hs with
  | nil => rfl
  | cons h rest ih =>
    simp [bIterLoopS, into_ownedS_b_frame, ih]

/-- Stateful iteration over cloned `CHolder` values agrees with a pure map
and preserves the table. -/
theorem cIterLoopS_frame (tables : Ap000) (hs : List CHolder) :
    cIterLoopS hs tables = (hs.map (fun h => h.into_owned tables), tables) := by
  induction hs with
  | nil => rfl
  | cons h rest ih =>
    simp [cIterLoopS, into_ownedS_c_frame, ih]

/-- Claim C8: every resolution request — `into_owned` on a cloned holder,
`get_entity`, or any of the three iterators — leaves the table (and hence
every holder stored in it) unchanged, and its result is exactly the pure
read-only resolution: the stateful rendering of each request returns the
pair of the pure result and the original table. -/
theorem resolution_preserves_table :
    ∀ (tables : Ap000),
    (∀ id : Nat, tables.get_entity_aS id = (tables.get_entity_a id, tables))
    ∧ (∀ id : Nat, tables.get_entity_bS id = (tables.get_entity_b id, tables))
    ∧ (∀ id : Nat, tables.get_entity_cS id = (tables.get_entity_c id, tables))
    ∧ (∀ h : AHolder, h.into_ownedS tables = (h.into_owned tables, tables))
    ∧ (∀ h : BHolder, h.into_ownedS tables = (h.into_owned tables, tables))
    ∧ (∀ h : CHolder, h.into_ownedS tables = (h.into_owned tables, tables))
    ∧ Ap000.a_iterS tables = (Ap000.a_iter tables, tables)
    ∧ Ap000.b_iterS tables = (Ap000.b_iter tables, tables)
    ∧ Ap000.c_iterS tables = (Ap000.c_iter tables, tables) := by
  intro tables
  refine ⟨get_entity_aS_frame tables, get_entity_bS_frame tables,
    get_entity_cS_frame tables, fun h => rfl, into_ownedS_b_frame tables,
    into_ownedS_c_frame tables, ?_, ?_, ?_⟩
  · exact aIterLoopS_frame tables (mapValues tables.a)
  · exact bIterLoopS_frame tables (mapValues tables.b)
  · exact cIterLoopS_frame tables (mapValues tables.c)
